import Mathlib

/-!
Verification development for the notes-backup pipeline (`backup_notes.py`).

The embedding models the core snapshot → serialize → compress → publish
pipeline (`run`), the retention pruner (`prune`), and the module-level
timestamp (`TS`) as pure Lean functions over an explicit world state.

Modelling conventions:
* The destination directory is a list of `(name, data)` entries (`FS.files`);
  created directories are an association list from path components to the
  mode bits they were created with (`FS.dirs`).
* Library effects are modelled at the granularity the source uses them:
  the sqlite online-backup loop is a trace of progress-callback invocations,
  and the lzma container is a record holding its format, the configured
  integrity check and the exact byte payload fed to the compressor (a
  correct lossless compressor, per the lzma documentation).
* Failures of the individual pipeline stages are injected through a
  `Faults` record; `run` returns `Except Err Unit` together with the final
  world, mirroring Python exception propagation.
-/

/-- Bytes are natural numbers below 256; we only ever build them from a
UTF-8 encoder so no modular arithmetic is needed. -/
abbrev Bytes := List Nat

/-- Frequency classes, from `FREQS` in the source. -/
def FREQS : List String := ["hourly", "daily", "weekly", "monthly"]

/-- Retention limits, from the `NUM_FREQS` dict in the source.  The Python
dict raises `KeyError` for other keys; the CLI restricts `freq` to `FREQS`
(`click.Choice(FREQS)`), so theorems hypothesise membership in `FREQS`. -/
def NUM_FREQS (freq : String) : Nat :=
  if freq = "hourly" then 24
  else if freq = "daily" then 7
  else if freq = "weekly" then 8
  else if freq = "monthly" then 24
  else 0

/-- Configuration record, from `Config` in the source.  Paths are lists of
path components. -/
structure Config where
  src : List String
  dst : List String
  freq : String
deriving DecidableEq

/-- UTF-8 encoding of a single character (by code point), as performed by
`str.encode("utf8")`. -/
def utf8Char (c : Char) : Bytes :=
  let n := c.toNat
  if n < 0x80 then [n]
  else if n < 0x800 then [0xC0 + n / 0x40, 0x80 + n % 0x40]
  else if n < 0x10000 then
    [0xE0 + n / 0x1000, 0x80 + (n / 0x40) % 0x40, 0x80 + n % 0x40]
  else
    [0xF0 + n / 0x40000, 0x80 + (n / 0x1000) % 0x40,
     0x80 + (n / 0x40) % 0x40, 0x80 + n % 0x40]

/-- UTF-8 encoding of a whole string. -/
def utf8Encode (s : String) : Bytes :=
  (s.data.map utf8Char).flatten

/-- The byte stream the serializer feeds to the compressor: each statement
of `mem.iterdump()` encoded as a newline-terminated UTF-8 line
(`f"{line}\n".encode("utf8")` in the source). -/
def iterdumpBytes (dump : List String) : Bytes :=
  (dump.map (fun line => utf8Encode (line ++ "\n"))).flatten

/-- Value of `lzma.FORMAT_XZ`. -/
def LZMA_FORMAT_XZ : Nat := 1

/-- Value of `lzma.CHECK_SHA256`. -/
def LZMA_CHECK_SHA256 : Nat := 10

/-- Model of an xz container produced by `lzma.LZMAFile`: the container
format, the embedded content-integrity check kind, and the (losslessly
compressed) byte payload. -/
structure XZArchive where
  format : Nat
  check : Nat
  payload : Bytes
deriving DecidableEq

/-- Compression as configured in the source:
`lzma.LZMAFile(tmp, mode="w", format=lzma.FORMAT_XZ, check=lzma.CHECK_SHA256)`. -/
def xzCompress (b : Bytes) : XZArchive :=
  { format := LZMA_FORMAT_XZ, check := LZMA_CHECK_SHA256, payload := b }

/-- Decompression of a (well-formed) xz container recovers the payload. -/
def xzDecompress (a : XZArchive) : Bytes :=
  a.payload

/-- Contents of a file in the destination directory: either a completed xz
archive, or raw bytes (e.g. a temp file mid-write). -/
inductive FileData where
  | xz (a : XZArchive)
  | raw (b : Bytes)
deriving DecidableEq

/-- Association-list lookup of a file by name. -/
def lookupFile (n : String) : List (String × FileData) → Option FileData
  | [] => none
  | (m, d) :: rest => if m = n then some d else lookupFile n rest

/-- Remove every entry named `n` (models `os.unlink` / the source name of a
rename). -/
def removeFile (n : String) (files : List (String × FileData)) :
    List (String × FileData) :=
  files.filter (fun p => p.1 != n)

/-- Create or replace the file named `n`. -/
def setFile (n : String) (d : FileData) (files : List (String × FileData)) :
    List (String × FileData) :=
  (n, d) :: removeFile n files

/-- Association-list lookup of a directory by path. -/
def lookupDir (p : List String) : List (List String × Nat) → Option Nat
  | [] => none
  | (q, m) :: rest => if q = p then some m else lookupDir p rest

/-- One `mkdir`: create the directory with the given mode bits unless it
already exists (in which case its mode is untouched). -/
def mkdirOne (p : List String) (mode : Nat) (dirs : List (List String × Nat)) :
    List (List String × Nat) :=
  match lookupDir p dirs with
  | some _ => dirs
  | none => (p, mode) :: dirs

/-- The proper ancestors of a path, shortest first (the missing parents
`Path.mkdir(parents=True)` creates). -/
def ancestors (p : List String) : List (List String) :=
  p.inits.filter (fun q => !q.isEmpty && decide (q.length < p.length))

/-- Model of `cfg.dst.mkdir(mode=0o700, parents=True, exist_ok=True)`:
missing parents are created with default permissions, the final directory
with the requested mode, and prior existence is tolerated. -/
def mkdir_p (path : List String) (mode : Nat)
    (dirs : List (List String × Nat)) : List (List String × Nat) :=
  mkdirOne path mode ((ancestors path).foldl (fun d q => mkdirOne q 0o777 d) dirs)

/-- Filesystem state: created directories (path, creation mode) and the
entries of the destination directory. -/
structure FS where
  dirs : List (List String × Nat)
  files : List (String × FileData)
deriving DecidableEq

/-- The names visible in the destination directory. -/
def fileNames (fs : FS) : List String :=
  fs.files.map Prod.fst

/-- The live source database: its page count, its logical dump (the
statement sequence `iterdump` would produce from a consistent snapshot),
and for how many seconds a concurrent writer holds its lock. -/
structure SourceDb where
  pages : Nat
  dump : List String
  lockHeldFor : Nat
deriving DecidableEq

/-- World state threaded through the embedding: the filesystem, the source
database, the stream of values `arrow.now()` will return (formatted), the
progress-callback invocations observed so far, and the error log. -/
structure World where
  fs : FS
  src : SourceDb
  clock : List String
  progressLog : List (Nat × Nat × Nat)
  errLog : List String
deriving DecidableEq

/-- Errors raised by the pipeline, one per failure point of `run`. -/
inductive Err where
  | sourceUnavailable
  | serializationError
  | compressError
  | fsyncError
  | renameError
deriving DecidableEq

/-- Fault injection: which stage of the publish block raises, and whether
the best-effort cleanup `os.unlink(tmp.name)` itself fails. -/
structure Faults where
  serializeErr : Bool
  compressErr : Bool
  fsyncErr : Bool
  renameErr : Bool
  unlinkErr : Bool
deriving DecidableEq

/-- The fault-free environment. -/
def noFaults : Faults :=
  { serializeErr := false, compressErr := false, fsyncErr := false
    renameErr := false, unlinkErr := false }

/-- Name of the produced backup file: `f"{TS}_{cfg.freq}.sql.xz"`. -/
def backupFileName (ts freq : String) : String :=
  ts ++ "_" ++ freq ++ ".sql.xz"

/-- Model of `backup_path(cfg)`: the destination path
`cfg.dst.joinpath(f"{TS}_{cfg.freq}.sql.xz")`. -/
def backup_path (ts : String) (cfg : Config) : List String :=
  cfg.dst ++ [backupFileName ts cfg.freq]

/-- Value of `SQLITE_OK`, the status sqlite reports for a backup step that
copied its batch with pages still remaining. -/
def SQLITE_OK : Nat := 0

/-- Value of `SQLITE_DONE`, the status sqlite reports for the final backup
step. -/
def SQLITE_DONE : Nat := 101

/-- One iteration of the sqlite online-backup loop per fuel unit: each step
copies `pages` pages (the `pages=16` argument) and then invokes the progress
callback with `(status, remaining, total)`, until no pages remain. -/
def backupStepLoop (pages : Nat) : Nat → Nat → Nat → List (Nat × Nat × Nat)
  | 0, _, _ => []
  | fuel + 1, rem, total =>
    let rem2 := rem - pages
    (if rem2 = 0 then SQLITE_DONE else SQLITE_OK, rem2, total) ::
      (if rem2 = 0 then [] else backupStepLoop pages fuel rem2 total)

/-- The full trace of progress-callback invocations for one
`back.backup(mem, pages=16, progress=progress)` call on a `total`-page
database. -/
def sqliteBackupTrace (pages total : Nat) : List (Nat × Nat × Nat) :=
  backupStepLoop pages total total total

/-- Lexicographic (code point) comparison of character lists, the order
Python uses to compare strings. -/
def charListLe : List Char → List Char → Bool
  | [], _ => true
  | _ :: _, [] => false
  | a :: as, b :: bs =>
    if a < b then true
    else if b < a then false
    else charListLe as bs

/-- Lexicographic comparison of strings (Python `<=` on `str`). -/
def strLe (a b : String) : Bool :=
  charListLe a.data b.data

/-- Propositional form of `strLe`, used as the sorting relation. -/
def strLeP (a b : String) : Prop :=
  strLe a b = true

instance : DecidableRel strLeP :=
  fun a b => inferInstanceAs (Decidable (strLe a b = true))

/-- Whether a file name matches the glob `*_{freq}.sql.xz` used by `prune`
(`fnmatch`-style `*` matches any, possibly empty, character sequence). -/
def matchesFreq (freq name : String) : Bool :=
  ("_" ++ freq ++ ".sql.xz").data.isSuffixOf name.data

/-- The matching backups sorted ascending:
`sorted(list(cfg.dst.glob(f"*_{cfg.freq}.sql.xz")))`. -/
def sortedBackups (cfg : Config) (fs : FS) : List String :=
  List.insertionSort strLeP ((fileNames fs).filter (matchesFreq cfg.freq))

/-- The signed surplus `too_many = len(backups) - NUM_FREQS[cfg.freq]`. -/
def pruneSurplus (cfg : Config) (fs : FS) : Int :=
  ((sortedBackups cfg fs).length : Int) - (NUM_FREQS cfg.freq : Int)

/-- Model of `prune(cfg)`: delete the `too_many` lexicographically smallest
matching backups when the surplus is positive, otherwise do nothing. -/
def prune (cfg : Config) (fs : FS) : FS :=
  let backups := sortedBackups cfg fs
  let tooMany := pruneSurplus cfg fs
  if 0 < tooMany then
    { fs with
      files := (backups.take tooMany.toNat).foldl
        (fun fl b => removeFile b fl) fs.files }
  else fs

/-- Message logged when the best-effort unlink of the temp file fails. -/
def UNLINK_ERR_MSG : String := "failed to unlink tempfile"

/-- Step 1 of `run`: `cfg.dst.mkdir(mode=0o700, parents=True, exist_ok=True)`. -/
def runMkdir (cfg : Config) (w : World) : World :=
  { w with fs := { w.fs with dirs := mkdir_p cfg.dst 0o700 w.fs.dirs } }

/-- The snapshot stage: the online-backup copy loop records its
progress-callback invocations. -/
def runSnapshot (w : World) : World :=
  { w with progressLog := w.progressLog ++ sqliteBackupTrace 16 w.src.pages }

/-- Creation of the named temp file (`NamedTemporaryFile(mode="w+b",
dir=dest_path.parent, delete=False)`) inside the destination directory. -/
def runMkTemp (tmp : String) (w : World) : World :=
  { w with fs := { w.fs with files := setFile tmp (FileData.raw []) w.fs.files } }

/-- The serialize+compress stages completing: the temp file now holds the
finished xz archive of the replica dump. -/
def runWriteArchive (tmp : String) (w : World) : World :=
  { w with fs := { w.fs with
      files := setFile tmp (FileData.xz (xzCompress (iterdumpBytes w.src.dump)))
        w.fs.files } }

/-- The atomic publish: `os.rename(tmp.name, str(dest_path))` removes the
temp name and makes the archive visible under the final name (replacing any
existing file at that name). -/
def runRename (tmp dest : String) (w : World) : World :=
  { w with fs := { w.fs with
      files := setFile dest (FileData.xz (xzCompress (iterdumpBytes w.src.dump)))
        (removeFile tmp w.fs.files) } }

/-- The `except` block of `run`: best-effort unlink of the temp file (a
failing unlink is logged and swallowed), then `raise e from None` re-raises
the original error. -/
def publishCleanup (tmp : String) (err : Err) (f : Faults) (w : World) :
    Except Err Unit × World :=
  if f.unlinkErr then
    (Except.error err, { w with errLog := w.errLog ++ [UNLINK_ERR_MSG] })
  else
    (Except.error err, { w with fs := { w.fs with
        files := removeFile tmp w.fs.files } })

/-- Model of `run(cfg)`.  `ts` is the module-level `TS` in scope when `run`
executes; `tmp` is the fresh name `NamedTemporaryFile` chose.  The source
connection uses `timeout=60.0`, so a writer holding the lock for longer
than 60 seconds raises before any file is touched. -/
def run (ts tmp : String) (cfg : Config) (f : Faults) (w : World) :
    Except Err Unit × World :=
  let w1 := runMkdir cfg w
  let dest := backupFileName ts cfg.freq
  if 60 < w.src.lockHeldFor then
    (Except.error Err.sourceUnavailable, w1)
  else
    let w2 := runMkTemp tmp (runSnapshot w1)
    if f.serializeErr then publishCleanup tmp Err.serializationError f w2
    else if f.compressErr then publishCleanup tmp Err.compressError f w2
    else
      let w3 := runWriteArchive tmp w2
      if f.fsyncErr then publishCleanup tmp Err.fsyncError f w3
      else if f.renameErr then publishCleanup tmp Err.renameError f w3
      else (Except.ok (), runRename tmp dest w3)

/-- The first pipeline error `f` injects into the publish block, in source
order (serialize, compress, fsync, rename). -/
def publishFault (f : Faults) : Option Err :=
  if f.serializeErr then some Err.serializationError
  else if f.compressErr then some Err.compressError
  else if f.fsyncErr then some Err.fsyncError
  else if f.renameErr then some Err.renameError
  else none

/-- Model of the CLI `backup` command: module import computes
`TS = arrow.now().format(...)` once (one clock read), then `run(cfg)` and,
on success, `prune(cfg)`. -/
def backupCommand (tmp : String) (cfg : Config) (f : Faults) (w : World) :
    Except Err Unit × World :=
  let ts := w.clock.headD ""
  let w0 := { w with clock := w.clock.tail }
  match run ts tmp cfg f w0 with
  | (Except.ok _, w1) => (Except.ok (), { w1 with fs := prune cfg w1.fs })
  | (Except.error e, w1) => (Except.error e, w1)

/-- Concrete configuration used to exercise the model on closed inputs. -/
def exCfg : Config :=
  { src := ["notes.sqlite"], dst := ["backups"], freq := "hourly" }

/-- Concrete idle source database with 32 pages and a two-statement dump. -/
def exSrc : SourceDb :=
  { pages := 32, dump := ["BEGIN TRANSACTION;", "COMMIT;"], lockHeldFor := 0 }

/-- Concrete world: empty destination, idle source, one pending clock value. -/
def exWorld : World :=
  { fs := { dirs := [], files := [] }, src := exSrc
    clock := ["20250101120000-0500"], progressLog := [], errLog := [] }

/-- World whose source is locked by a writer for 120 seconds, past the
60-second busy-wait timeout. -/
def exWorldBusy : World :=
  { exWorld with src := { exSrc with lockHeldFor := 120 } }

/-- World in which the destination already holds a file with the very name
this run will choose (timestamp collision). -/
def exWorldCollide : World :=
  { exWorld with
    fs := { dirs := [], files := [("T_hourly.sql.xz", FileData.raw [])] } }

/-- Destination directory holding nine daily backups (limit 7) and one
unrelated file. -/
def exFsDaily : FS :=
  { dirs := []
    files := [("t8_daily.sql.xz", FileData.raw []), ("t3_daily.sql.xz", FileData.raw []),
              ("t1_daily.sql.xz", FileData.raw []), ("t7_daily.sql.xz", FileData.raw []),
              ("t2_daily.sql.xz", FileData.raw []), ("t5_daily.sql.xz", FileData.raw []),
              ("t4_daily.sql.xz", FileData.raw []), ("t6_daily.sql.xz", FileData.raw []),
              ("t9_daily.sql.xz", FileData.raw []), ("notes.txt", FileData.raw [])] }

/-- Daily-frequency configuration for the pruning examples. -/
def exCfgDaily : Config :=
  { src := ["notes.sqlite"], dst := ["backups"], freq := "daily" }

/-- The fault set in which `os.fsync` raises and the subsequent best-effort
unlink of the temp file also fails. -/
def exFsyncUnlinkFaults : Faults :=
  { noFaults with fsyncErr := true, unlinkErr := true }

/-! ### Order lemmas for the lexicographic string comparison -/

theorem char_eq_of_not_lt {a b : Char} (h1 : ¬ a < b) (h2 : ¬ b < a) : a = b :=
  le_antisymm (not_lt.mp h2) (not_lt.mp h1)

theorem charListLe_total : ∀ a b : List Char,
    charListLe a b = true ∨ charListLe b a = true
  | [], _ => Or.inl rfl
  | _ :: _, [] => Or.inr rfl
  | a :: as, b :: bs => by
    by_cases hab : a < b
    · left; simp [charListLe, hab]
    · by_cases hba : b < a
      · right; simp [charListLe, hba]
      · rcases charListLe_total as bs with h | h
        · left; simp [charListLe, hab, hba, h]
        · right; simp [charListLe, hab, hba, h]

theorem charListLe_trans : ∀ a b c : List Char,
    charListLe a b = true → charListLe b c = true → charListLe a c = true
  | [], _, _, _, _ => rfl
  | _ :: _, [], _, hab, _ => by simp [charListLe] at hab
  | _ :: _, _ :: _, [], _, hbc => by simp [charListLe] at hbc
  | x :: xs, y :: ys, z :: zs, hab, hbc => by
    by_cases hxy : x < y
    · by_cases hyz : y < z
      · simp [charListLe, lt_trans hxy hyz]
      · by_cases hzy : z < y
        · simp [charListLe, hyz, hzy] at hbc
        · have hyzeq : y = z := char_eq_of_not_lt hyz hzy
          subst hyzeq
          simp [charListLe, hxy]
    · by_cases hyx : y < x
      · simp [charListLe, hxy, hyx] at hab
      · have hxyeq : x = y := char_eq_of_not_lt hxy hyx
        subst hxyeq
        simp only [charListLe, if_neg hxy, if_neg hyx] at hab
        by_cases hxz : x < z
        · simp [charListLe, hxz]
        · by_cases hzx : z < x
          · simp [charListLe, hxz, hzx] at hbc
          · simp only [charListLe, if_neg hxz, if_neg hzx] at hbc ⊢
            exact charListLe_trans xs ys zs hab hbc

theorem charListLe_antisymm : ∀ a b : List Char,
    charListLe a b = true → charListLe b a = true → a = b
  | [], [], _, _ => rfl
  | [], _ :: _, _, hba => by simp [charListLe] at hba
  | _ :: _, [], hab, _ => by simp [charListLe] at hab
  | x :: xs, y :: ys, hab, hba => by
    by_cases hxy : x < y
    · simp [charListLe, hxy] at hba
      exact absurd hba (lt_asymm hxy)
    · by_cases hyx : y < x
      · simp [charListLe, hxy, hyx] at hab
      · have hxyeq : x = y := char_eq_of_not_lt hxy hyx
        subst hxyeq
        simp only [charListLe, if_neg hxy] at hab hba
        rw [charListLe_antisymm xs ys hab hba]

theorem strLe_total (a b : String) : strLeP a b ∨ strLeP b a :=
  charListLe_total a.data b.data

theorem strLe_trans {a b c : String} (h1 : strLeP a b) (h2 : strLeP b c) :
    strLeP a c :=
  charListLe_trans a.data b.data c.data h1 h2

theorem strLe_antisymm {a b : String} (h1 : strLeP a b) (h2 : strLeP b a) :
    a = b := by
  cases a with
  | mk da =>
    cases b with
    | mk db =>
      have : da = db := charListLe_antisymm da db h1 h2
      rw [this]

instance : IsTotal String strLeP :=
  ⟨strLe_total⟩

instance : IsTrans String strLeP :=
  ⟨fun _ _ _ => strLe_trans⟩

/-! ### Association-list and filter lemmas -/

theorem filter_ne_of_not_mem {l : List String} {a : String} (h : a ∉ l) :
    l.filter (fun x => x != a) = l := by
  induction l with
  | nil => rfl
  | cons b bs ih =>
    simp only [List.mem_cons, not_or] at h
    have hba : (b != a) = true := by
      simp [bne_iff_ne]
      exact fun hc => h.1 hc.symm
    simp [List.filter_cons, hba, ih h.2]

theorem length_filter_ne {l : List String} {a : String} (hnd : l.Nodup)
    (ha : a ∈ l) : (l.filter (fun x => x != a)).length + 1 = l.length := by
  induction l with
  | nil => cases ha
  | cons b bs ih =>
    rcases List.mem_cons.mp ha with hba | hmem
    · subst hba
      have : a ∉ bs := (List.nodup_cons.mp hnd).1
      simp [List.filter_cons, filter_ne_of_not_mem this]
    · have hnd2 := (List.nodup_cons.mp hnd).2
      have hb : b ≠ a := fun hc => (List.nodup_cons.mp hnd).1 (hc ▸ hmem)
      have hbb : (b != a) = true := by simp [bne_iff_ne]; exact hb
      simp only [List.filter_cons, hbb, if_true, List.length_cons]
      rw [← ih hnd2 hmem]

theorem map_fst_removeFile (n : String) (fl : List (String × FileData)) :
    (removeFile n fl).map Prod.fst = (fl.map Prod.fst).filter (fun x => x != n) := by
  induction fl with
  | nil => rfl
  | cons p ps ih =>
    simp only [removeFile, List.map_cons, List.filter_cons] at ih ⊢
    by_cases h : (p.1 != n) = true
    · simp [h, ih]
    · simp [h, ih]

theorem removeFile_eq_self {n : String} {fl : List (String × FileData)}
    (h : n ∉ fl.map Prod.fst) : removeFile n fl = fl := by
  induction fl with
  | nil => rfl
  | cons p ps ih =>
    simp only [List.map_cons, List.mem_cons, not_or] at h
    have hp : (p.1 != n) = true := by
      rw [bne_iff_ne]
      exact fun hc => h.1 hc.symm
    simp only [removeFile] at ih ⊢
    rw [List.filter_cons, if_pos hp, ih h.2]

theorem removeFile_setFile (n : String) (d : FileData)
    (fl : List (String × FileData)) :
    removeFile n (setFile n d fl) = removeFile n fl := by
  simp [setFile, removeFile, List.filter_filter]

theorem lookupFile_setFile_self (n : String) (d : FileData)
    (fl : List (String × FileData)) :
    lookupFile n (setFile n d fl) = some d := by
  simp [setFile, lookupFile]

theorem lookupFile_removeFile_ne {m n : String} (h : m ≠ n)
    (fl : List (String × FileData)) :
    lookupFile m (removeFile n fl) = lookupFile m fl := by
  induction fl with
  | nil => rfl
  | cons p ps ih =>
    obtain ⟨a, b⟩ := p
    simp only [removeFile, List.filter_cons] at ih ⊢
    by_cases hp : ((a, b).1 != n) = true
    · rw [if_pos hp]
      simp only [lookupFile]
      by_cases hm : a = m
      · rw [if_pos hm, if_pos hm]
      · rw [if_neg hm, if_neg hm]
        exact ih
    · rw [if_neg hp]
      have han : a = n := by
        simp only [bne_iff_ne] at hp
        exact not_not.mp hp
      rw [ih]
      simp only [lookupFile]
      rw [if_neg (fun hc : a = m => h (hc ▸ han))]

theorem fileNames_foldl_removeFile (ds : List String)
    (fl : List (String × FileData)) :
    ((ds.foldl (fun f b => removeFile b f) fl).map Prod.fst) =
      ds.foldl (fun ns b => ns.filter (fun x => x != b)) (fl.map Prod.fst) := by
  induction ds generalizing fl with
  | nil => rfl
  | cons d ds ih =>
    simp only [List.foldl_cons]
    rw [ih, map_fst_removeFile]

theorem foldl_filter_eq_filter_contains (ds ns : List String) :
    ds.foldl (fun ns b => ns.filter (fun x => x != b)) ns =
      ns.filter (fun x => !ds.contains x) := by
  induction ds generalizing ns with
  | nil => simp
  | cons d ds ih =>
    simp only [List.foldl_cons]
    rw [ih, List.filter_filter]
    apply List.filter_congr
    intro x _
    simp only [List.contains_cons, Bool.not_or, Bool.and_comm, bne]

theorem lookupFile_foldl_removeFile (ds : List String)
    (fl : List (String × FileData)) (n : String) (h : n ∉ ds) :
    lookupFile n (ds.foldl (fun f b => removeFile b f) fl) = lookupFile n fl := by
  induction ds generalizing fl with
  | nil => rfl
  | cons d ds ih =>
    simp only [List.mem_cons, not_or] at h
    simp only [List.foldl_cons]
    rw [ih _ h.2, lookupFile_removeFile_ne h.1]

theorem length_filter_not_contains (ds : List String) :
    ∀ ns : List String, ns.Nodup → ds.Nodup → (∀ d ∈ ds, d ∈ ns) →
      (ns.filter (fun x => !ds.contains x)).length = ns.length - ds.length := by
  induction ds with
  | nil => intro ns _ _ _; simp
  | cons d ds ih =>
    intro ns hns hds hsub
    have hstep : ns.filter (fun x => !(d :: ds).contains x) =
        (ns.filter (fun x => x != d)).filter (fun x => !ds.contains x) := by
      rw [List.filter_filter]
      apply List.filter_congr
      intro x _
      simp only [List.contains_cons, Bool.not_or, Bool.and_comm, bne]
    rw [hstep]
    have hdnods : d ∉ ds := (List.nodup_cons.mp hds).1
    have hihsub : ∀ x ∈ ds, x ∈ ns.filter (fun x => x != d) := by
      intro x hx
      rw [List.mem_filter]
      refine ⟨hsub x (List.mem_cons_of_mem _ hx), ?_⟩
      rw [bne_iff_ne]
      exact fun hc => hdnods (hc ▸ hx)
    rw [ih _ (hns.filter _) (List.nodup_cons.mp hds).2 hihsub]
    have hlen := length_filter_ne hns (hsub d (List.mem_cons_self d ds))
    simp only [List.length_cons]
    omega

/-! ### Directory creation lemmas -/

theorem lookupDir_mkdirOne (p q : List String) (m : Nat)
    (dirs : List (List String × Nat)) :
    lookupDir p (mkdirOne q m dirs) =
      if q = p then some ((lookupDir q dirs).getD m) else lookupDir p dirs := by
  unfold mkdirOne
  cases h : lookupDir q dirs with
  | some v =>
    by_cases hpq : q = p
    · subst hpq; simp [h]
    · simp [hpq]
  | none =>
    by_cases hpq : q = p
    · subst hpq; simp [lookupDir, h]
    · simp [lookupDir, hpq]

theorem lookupDir_foldl_ne (l : List (List String)) (p : List String)
    (dirs : List (List String × Nat)) (h : ∀ q ∈ l, q ≠ p) :
    lookupDir p (l.foldl (fun d q => mkdirOne q 0o777 d) dirs) = lookupDir p dirs := by
  induction l generalizing dirs with
  | nil => rfl
  | cons q l ih =>
    simp only [List.foldl_cons]
    rw [ih _ (fun r hr => h r (List.mem_cons_of_mem _ hr)),
      lookupDir_mkdirOne, if_neg (h q (List.mem_cons_self q l))]

theorem lookupDir_isSome_mkdirOne {p : List String}
    {dirs : List (List String × Nat)} (q : List String) (m : Nat)
    (h : (lookupDir p dirs).isSome) :
    (lookupDir p (mkdirOne q m dirs)).isSome := by
  rw [lookupDir_mkdirOne]
  by_cases hpq : q = p
  · subst hpq; simp
  · rw [if_neg hpq]; exact h

theorem lookupDir_isSome_foldl (l : List (List String)) (p : List String)
    (dirs : List (List String × Nat)) (h : (lookupDir p dirs).isSome) :
    (lookupDir p (l.foldl (fun d q => mkdirOne q 0o777 d) dirs)).isSome := by
  induction l generalizing dirs with
  | nil => exact h
  | cons q l ih =>
    simp only [List.foldl_cons]
    exact ih _ (lookupDir_isSome_mkdirOne q _ h)

theorem lookupDir_mem_foldl (l : List (List String)) (p : List String)
    (dirs : List (List String × Nat)) (hp : p ∈ l) :
    (lookupDir p (l.foldl (fun d q => mkdirOne q 0o777 d) dirs)).isSome := by
  induction l generalizing dirs with
  | nil => cases hp
  | cons q l ih =>
    simp only [List.foldl_cons]
    rcases List.mem_cons.mp hp with hqp | hmem
    · subst hqp
      apply lookupDir_isSome_foldl
      rw [lookupDir_mkdirOne, if_pos rfl]
      simp
    · exact ih _ hmem

theorem ancestors_ne_self {path q : List String} (hq : q ∈ ancestors path) :
    q ≠ path := by
  unfold ancestors at hq
  rw [List.mem_filter] at hq
  intro hc
  subst hc
  simp at hq

theorem lookupDir_mkdir_p_self (path : List String) (mode : Nat)
    (dirs : List (List String × Nat)) :
    lookupDir path (mkdir_p path mode dirs) =
      some ((lookupDir path dirs).getD mode) := by
  unfold mkdir_p
  rw [lookupDir_mkdirOne, if_pos rfl,
    lookupDir_foldl_ne _ _ _ (fun q hq => ancestors_ne_self hq)]

theorem lookupDir_mkdir_p_ancestor (path : List String) (mode : Nat)
    (dirs : List (List String × Nat)) (q : List String)
    (hq : q ∈ ancestors path) :
    (lookupDir q (mkdir_p path mode dirs)).isSome := by
  unfold mkdir_p
  exact lookupDir_isSome_mkdirOne _ _ (lookupDir_mem_foldl _ _ _ hq)

/-! ### The sqlite online-backup loop -/

theorem backupStepLoop_eq (fuel : Nat) :
    ∀ rem total : Nat, 0 < rem → rem ≤ fuel →
      backupStepLoop 16 fuel rem total =
        (List.range ((rem + 15) / 16)).map (fun i =>
          (if rem - 16 * (i + 1) = 0 then SQLITE_DONE else SQLITE_OK,
           rem - 16 * (i + 1), total)) := by
  induction fuel with
  | zero => intro rem total hrem hfuel; omega
  | succ fuel ih =>
    intro rem total hrem hfuel
    by_cases hle : rem ≤ 16
    · have hr2 : rem - 16 = 0 := by omega
      have hceil : (rem + 15) / 16 = 1 := by omega
      simp only [backupStepLoop, hr2, if_pos rfl, hceil]
      have h0 : rem - 16 * (0 + 1) = 0 := by omega
      rw [show List.range 1 = [0] from rfl, List.map_cons, List.map_nil, h0]
      simp
    · have hr2 : rem - 16 ≠ 0 := by omega
      simp only [backupStepLoop, if_neg hr2]
      rw [ih (rem - 16) total (by omega) (by omega)]
      have hceil : (rem + 15) / 16 = ((rem - 16) + 15) / 16 + 1 := by omega
      rw [hceil, List.range_succ_eq_map, List.map_cons, List.map_map]
      congr 1
      · have h16 : rem - 16 * (0 + 1) = rem - 16 := by omega
        rw [h16, if_neg hr2]
      · apply List.map_congr_left
        intro i _
        have harith : rem - 16 - 16 * (i + 1) = rem - 16 * (i + 1 + 1) := by omega
        simp only [Function.comp_apply]
        rw [harith]

theorem sqliteBackupTrace_eq (total : Nat) (h : 0 < total) :
    sqliteBackupTrace 16 total =
      (List.range ((total + 15) / 16)).map (fun i =>
        (if total - 16 * (i + 1) = 0 then SQLITE_DONE else SQLITE_OK,
         total - 16 * (i + 1), total)) :=
  backupStepLoop_eq total total total h le_rfl

/-! ### Case analysis of `run` -/

theorem publishCleanup_fst (tmp : String) (err : Err) (f : Faults) (w : World) :
    (publishCleanup tmp err f w).1 = Except.error err := by
  unfold publishCleanup
  split <;> rfl

theorem publishCleanup_clock (tmp : String) (err : Err) (f : Faults) (w : World) :
    (publishCleanup tmp err f w).2.clock = w.clock := by
  unfold publishCleanup
  split <;> rfl

theorem publishCleanup_dirs (tmp : String) (err : Err) (f : Faults) (w : World) :
    (publishCleanup tmp err f w).2.fs.dirs = w.fs.dirs := by
  unfold publishCleanup
  split <;> rfl

theorem publishCleanup_progressLog (tmp : String) (err : Err) (f : Faults)
    (w : World) : (publishCleanup tmp err f w).2.progressLog = w.progressLog := by
  unfold publishCleanup
  split <;> rfl

theorem publishCleanup_errLog (tmp : String) (err : Err) (f : Faults) (w : World) :
    (publishCleanup tmp err f w).2.errLog =
      if f.unlinkErr then w.errLog ++ [UNLINK_ERR_MSG] else w.errLog := by
  unfold publishCleanup
  cases hu : f.unlinkErr <;> simp [hu]

theorem publishCleanup_files (tmp : String) (err : Err) (f : Faults) (w : World) :
    (publishCleanup tmp err f w).2.fs.files =
      if f.unlinkErr then w.fs.files else removeFile tmp w.fs.files := by
  unfold publishCleanup
  cases hu : f.unlinkErr <;> simp [hu]

theorem run_busy_eq {ts tmp : String} {cfg : Config} {f : Faults} {w : World}
    (h : 60 < w.src.lockHeldFor) :
    run ts tmp cfg f w = (Except.error Err.sourceUnavailable, runMkdir cfg w) := by
  simp [run, h]

theorem run_ser_eq {ts tmp : String} {cfg : Config} {f : Faults} {w : World}
    (hb : ¬ 60 < w.src.lockHeldFor) (h1 : f.serializeErr = true) :
    run ts tmp cfg f w =
      publishCleanup tmp Err.serializationError f
        (runMkTemp tmp (runSnapshot (runMkdir cfg w))) := by
  simp [run, hb, h1]

theorem run_comp_eq {ts tmp : String} {cfg : Config} {f : Faults} {w : World}
    (hb : ¬ 60 < w.src.lockHeldFor) (h1 : f.serializeErr = false)
    (h2 : f.compressErr = true) :
    run ts tmp cfg f w =
      publishCleanup tmp Err.compressError f
        (runMkTemp tmp (runSnapshot (runMkdir cfg w))) := by
  simp [run, hb, h1, h2]

theorem run_fsync_eq {ts tmp : String} {cfg : Config} {f : Faults} {w : World}
    (hb : ¬ 60 < w.src.lockHeldFor) (h1 : f.serializeErr = false)
    (h2 : f.compressErr = false) (h3 : f.fsyncErr = true) :
    run ts tmp cfg f w =
      publishCleanup tmp Err.fsyncError f
        (runWriteArchive tmp (runMkTemp tmp (runSnapshot (runMkdir cfg w)))) := by
  simp [run, hb, h1, h2, h3]

theorem run_rename_eq {ts tmp : String} {cfg : Config} {f : Faults} {w : World}
    (hb : ¬ 60 < w.src.lockHeldFor) (h1 : f.serializeErr = false)
    (h2 : f.compressErr = false) (h3 : f.fsyncErr = false)
    (h4 : f.renameErr = true) :
    run ts tmp cfg f w =
      publishCleanup tmp Err.renameError f
        (runWriteArchive tmp (runMkTemp tmp (runSnapshot (runMkdir cfg w)))) := by
  simp [run, hb, h1, h2, h3, h4]

theorem run_ok_eq {ts tmp : String} {cfg : Config} {f : Faults} {w : World}
    (hb : ¬ 60 < w.src.lockHeldFor) (h1 : f.serializeErr = false)
    (h2 : f.compressErr = false) (h3 : f.fsyncErr = false)
    (h4 : f.renameErr = false) :
    run ts tmp cfg f w =
      (Except.ok (), runRename tmp (backupFileName ts cfg.freq)
        (runWriteArchive tmp (runMkTemp tmp (runSnapshot (runMkdir cfg w))))) := by
  simp [run, hb, h1, h2, h3, h4]

theorem run_ok_flags {ts tmp : String} {cfg : Config} {f : Faults} {w : World}
    (h : (run ts tmp cfg f w).1 = Except.ok ()) :
    ¬ 60 < w.src.lockHeldFor ∧ f.serializeErr = false ∧ f.compressErr = false ∧
      f.fsyncErr = false ∧ f.renameErr = false := by
  by_cases hb : 60 < w.src.lockHeldFor
  · rw [run_busy_eq hb] at h
    simp at h
  · cases h1 : f.serializeErr
    · cases h2 : f.compressErr
      · cases h3 : f.fsyncErr
        · cases h4 : f.renameErr
          · exact ⟨hb, rfl, rfl, rfl, rfl⟩
          · rw [run_rename_eq hb h1 h2 h3 h4, publishCleanup_fst] at h
            simp at h
        · rw [run_fsync_eq hb h1 h2 h3, publishCleanup_fst] at h
          simp at h
      · rw [run_comp_eq hb h1 h2, publishCleanup_fst] at h
        simp at h
    · rw [run_ser_eq hb h1, publishCleanup_fst] at h
      simp at h

theorem run_err_flags {ts tmp : String} {cfg : Config} {f : Faults} {w : World}
    {e : Err} (h : (run ts tmp cfg f w).1 = Except.error e) :
    60 < w.src.lockHeldFor ∨ publishFault f = some e := by
  by_cases hb : 60 < w.src.lockHeldFor
  · exact Or.inl hb
  · right
    cases h1 : f.serializeErr
    · cases h2 : f.compressErr
      · cases h3 : f.fsyncErr
        · cases h4 : f.renameErr
          · rw [run_ok_eq hb h1 h2 h3 h4] at h
            simp at h
          · rw [run_rename_eq hb h1 h2 h3 h4, publishCleanup_fst] at h
            simp only [Except.error.injEq] at h
            simp [publishFault, h1, h2, h3, h4, h]
        · rw [run_fsync_eq hb h1 h2 h3, publishCleanup_fst] at h
          simp only [Except.error.injEq] at h
          simp [publishFault, h1, h2, h3, h]
      · rw [run_comp_eq hb h1 h2, publishCleanup_fst] at h
        simp only [Except.error.injEq] at h
        simp [publishFault, h1, h2, h]
    · rw [run_ser_eq hb h1, publishCleanup_fst] at h
      simp only [Except.error.injEq] at h
      simp [publishFault, h1, h]

theorem run_clock (ts tmp : String) (cfg : Config) (f : Faults) (w : World) :
    (run ts tmp cfg f w).2.clock = w.clock := by
  by_cases hb : 60 < w.src.lockHeldFor
  · rw [run_busy_eq hb]
    rfl
  · cases h1 : f.serializeErr
    · cases h2 : f.compressErr
      · cases h3 : f.fsyncErr
        · cases h4 : f.renameErr
          · rw [run_ok_eq hb h1 h2 h3 h4]
            rfl
          · rw [run_rename_eq hb h1 h2 h3 h4, publishCleanup_clock]
            rfl
        · rw [run_fsync_eq hb h1 h2 h3, publishCleanup_clock]
          rfl
      · rw [run_comp_eq hb h1 h2, publishCleanup_clock]
        rfl
    · rw [run_ser_eq hb h1, publishCleanup_clock]
      rfl


theorem run_dirs (ts tmp : String) (cfg : Config) (f : Faults) (w : World) :
    (run ts tmp cfg f w).2.fs.dirs = mkdir_p cfg.dst 0o700 w.fs.dirs := by
  by_cases hb : 60 < w.src.lockHeldFor
  · rw [run_busy_eq hb]
    rfl
  · cases h1 : f.serializeErr
    · cases h2 : f.compressErr
      · cases h3 : f.fsyncErr
        · cases h4 : f.renameErr
          · rw [run_ok_eq hb h1 h2 h3 h4]
            rfl
          · rw [run_rename_eq hb h1 h2 h3 h4, publishCleanup_dirs]
            rfl
        · rw [run_fsync_eq hb h1 h2 h3, publishCleanup_dirs]
          rfl
      · rw [run_comp_eq hb h1 h2, publishCleanup_dirs]
        rfl
    · rw [run_ser_eq hb h1, publishCleanup_dirs]
      rfl

theorem run_progressLog {ts tmp : String} {cfg : Config} {f : Faults} {w : World}
    (hb : ¬ 60 < w.src.lockHeldFor) :
    (run ts tmp cfg f w).2.progressLog =
      w.progressLog ++ sqliteBackupTrace 16 w.src.pages := by
  cases h1 : f.serializeErr
  · cases h2 : f.compressErr
    · cases h3 : f.fsyncErr
      · cases h4 : f.renameErr
        · rw [run_ok_eq hb h1 h2 h3 h4]
          rfl
        · rw [run_rename_eq hb h1 h2 h3 h4, publishCleanup_progressLog]
          rfl
      · rw [run_fsync_eq hb h1 h2 h3, publishCleanup_progressLog]
        rfl
    · rw [run_comp_eq hb h1 h2, publishCleanup_progressLog]
      rfl
  · rw [run_ser_eq hb h1, publishCleanup_progressLog]
    rfl

/-! ### Pruning lemmas -/

theorem sortedBackups_perm (cfg : Config) (fs : FS) :
    (sortedBackups cfg fs).Perm ((fileNames fs).filter (matchesFreq cfg.freq)) :=
  List.perm_insertionSort _ _

theorem sortedBackups_length (cfg : Config) (fs : FS) :
    (sortedBackups cfg fs).length =
      ((fileNames fs).filter (matchesFreq cfg.freq)).length :=
  (sortedBackups_perm cfg fs).length_eq

theorem sortedBackups_nodup (cfg : Config) (fs : FS)
    (hnd : (fileNames fs).Nodup) : (sortedBackups cfg fs).Nodup :=
  (sortedBackups_perm cfg fs).symm.nodup (hnd.filter _)

theorem sortedBackups_sorted (cfg : Config) (fs : FS) :
    List.Sorted strLeP (sortedBackups cfg fs) :=
  List.sorted_insertionSort _ _

theorem mem_sortedBackups {cfg : Config} {fs : FS} {x : String} :
    x ∈ sortedBackups cfg fs ↔
      x ∈ fileNames fs ∧ matchesFreq cfg.freq x = true := by
  rw [(sortedBackups_perm cfg fs).mem_iff, List.mem_filter]

theorem prune_eq_of_le {cfg : Config} {fs : FS}
    (h : pruneSurplus cfg fs ≤ 0) : prune cfg fs = fs := by
  unfold prune
  rw [if_neg (by omega)]

theorem prune_files_eq_of_pos {cfg : Config} {fs : FS}
    (h : 0 < pruneSurplus cfg fs) :
    (prune cfg fs).files =
      ((sortedBackups cfg fs).take (pruneSurplus cfg fs).toNat).foldl
        (fun fl b => removeFile b fl) fs.files := by
  unfold prune
  rw [if_pos h]

theorem prune_dirs (cfg : Config) (fs : FS) : (prune cfg fs).dirs = fs.dirs := by
  unfold prune
  by_cases h : 0 < pruneSurplus cfg fs
  · simp only [if_pos h]
  · simp only [if_neg h]

theorem fileNames_prune (cfg : Config) (fs : FS) :
    fileNames (prune cfg fs) =
      (fileNames fs).filter (fun x =>
        !((sortedBackups cfg fs).take (pruneSurplus cfg fs).toNat).contains x) := by
  by_cases h : 0 < pruneSurplus cfg fs
  · have hfiles := prune_files_eq_of_pos h
    unfold fileNames
    rw [hfiles, fileNames_foldl_removeFile, foldl_filter_eq_filter_contains]
  · have hk : (pruneSurplus cfg fs).toNat = 0 := by omega
    rw [prune_eq_of_le (by omega), hk, List.take_zero]
    simp

theorem mem_fileNames_prune {cfg : Config} {fs : FS} {x : String} :
    x ∈ fileNames (prune cfg fs) ↔
      x ∈ fileNames fs ∧
        x ∉ (sortedBackups cfg fs).take (pruneSurplus cfg fs).toNat := by
  rw [fileNames_prune, List.mem_filter]
  simp [List.elem_iff]

theorem take_surplus_subset_names {cfg : Config} {fs : FS} {d : String}
    (hd : d ∈ (sortedBackups cfg fs).take (pruneSurplus cfg fs).toNat) :
    d ∈ fileNames fs ∧ matchesFreq cfg.freq d = true :=
  mem_sortedBackups.mp (List.take_sublist _ _ |>.mem hd)

theorem fileNames_prune_length (cfg : Config) (fs : FS)
    (hnd : (fileNames fs).Nodup) :
    (fileNames (prune cfg fs)).length =
      (fileNames fs).length -
        (((fileNames fs).filter (matchesFreq cfg.freq)).length -
          NUM_FREQS cfg.freq) := by
  by_cases h : 0 < pruneSurplus cfg fs
  · rw [fileNames_prune]
    have hlen := length_filter_not_contains
      ((sortedBackups cfg fs).take (pruneSurplus cfg fs).toNat)
      (fileNames fs) hnd
      ((sortedBackups_nodup cfg fs hnd).sublist (List.take_sublist _ _))
      (fun d hd => (take_surplus_subset_names hd).1)
    rw [hlen, List.length_take, sortedBackups_length]
    have hs : pruneSurplus cfg fs =
        (((fileNames fs).filter (matchesFreq cfg.freq)).length : Int) -
          (NUM_FREQS cfg.freq : Int) := by
      unfold pruneSurplus
      rw [sortedBackups_length]
    rw [hs] at h ⊢
    omega
  · rw [prune_eq_of_le (by omega)]
    have hs : pruneSurplus cfg fs =
        (((fileNames fs).filter (matchesFreq cfg.freq)).length : Int) -
          (NUM_FREQS cfg.freq : Int) := by
      unfold pruneSurplus
      rw [sortedBackups_length]
    rw [hs] at h
    omega

theorem prune_keeps_nonmatching (cfg : Config) (fs : FS) (n : String)
    (hn : matchesFreq cfg.freq n = false) :
    lookupFile n (prune cfg fs).files = lookupFile n fs.files := by
  by_cases h : 0 < pruneSurplus cfg fs
  · rw [prune_files_eq_of_pos h]
    apply lookupFile_foldl_removeFile
    intro hmem
    have := (take_surplus_subset_names hmem).2
    rw [hn] at this
    cases this
  · rw [prune_eq_of_le (by omega)]

theorem prune_deleted_smallest (cfg : Config) (fs : FS)
    (hnd : (fileNames fs).Nodup) {d : String}
    (hd : d ∈ fileNames fs) (hd2 : d ∉ fileNames (prune cfg fs)) :
    matchesFreq cfg.freq d = true ∧
      ∀ k, k ∈ fileNames (prune cfg fs) → matchesFreq cfg.freq k = true →
        strLe d k = true ∧ d ≠ k := by
  have hdtake : d ∈ (sortedBackups cfg fs).take (pruneSurplus cfg fs).toNat := by
    by_contra hc
    exact hd2 (mem_fileNames_prune.mpr ⟨hd, hc⟩)
  refine ⟨(take_surplus_subset_names hdtake).2, ?_⟩
  intro k hk hkmatch
  have hk2 := mem_fileNames_prune.mp hk
  have hkB : k ∈ sortedBackups cfg fs :=
    mem_sortedBackups.mpr ⟨hk2.1, hkmatch⟩
  have hkdrop : k ∈ (sortedBackups cfg fs).drop (pruneSurplus cfg fs).toNat := by
    have hsplit := List.take_append_drop (pruneSurplus cfg fs).toNat
      (sortedBackups cfg fs)
    rw [← hsplit] at hkB
    rcases List.mem_append.mp hkB with hmem | hmem
    · exact absurd hmem hk2.2
    · exact hmem
  have hsplit := List.take_append_drop (pruneSurplus cfg fs).toNat
    (sortedBackups cfg fs)
  constructor
  · have hpw : (sortedBackups cfg fs).Pairwise strLeP :=
      sortedBackups_sorted cfg fs
    rw [← hsplit] at hpw
    exact (List.pairwise_append.mp hpw).2.2 d hdtake k hkdrop
  · have hpw : (sortedBackups cfg fs).Pairwise (fun a b => a ≠ b) :=
      sortedBackups_nodup cfg fs hnd
    rw [← hsplit] at hpw
    exact (List.pairwise_append.mp hpw).2.2 d hdtake k hkdrop

theorem filter_comm_bool (p q : String → Bool) (l : List String) :
    (l.filter p).filter q = (l.filter q).filter p := by
  rw [List.filter_filter, List.filter_filter]
  apply List.filter_congr
  intro x _
  rw [Bool.and_comm]

theorem prune_matching_length (cfg : Config) (fs : FS)
    (hnd : (fileNames fs).Nodup) :
    ((fileNames (prune cfg fs)).filter (matchesFreq cfg.freq)).length =
      ((fileNames fs).filter (matchesFreq cfg.freq)).length -
        (pruneSurplus cfg fs).toNat := by
  by_cases h : 0 < pruneSurplus cfg fs
  · rw [fileNames_prune, filter_comm_bool]
    have hds : ∀ d ∈ (sortedBackups cfg fs).take (pruneSurplus cfg fs).toNat,
        d ∈ (fileNames fs).filter (matchesFreq cfg.freq) := by
      intro d hd
      rw [List.mem_filter]
      exact take_surplus_subset_names hd
    have hlen := length_filter_not_contains
      ((sortedBackups cfg fs).take (pruneSurplus cfg fs).toNat)
      ((fileNames fs).filter (matchesFreq cfg.freq)) (hnd.filter _)
      ((sortedBackups_nodup cfg fs hnd).sublist (List.take_sublist _ _)) hds
    rw [hlen, List.length_take, sortedBackups_length]
    have hs : pruneSurplus cfg fs =
        (((fileNames fs).filter (matchesFreq cfg.freq)).length : Int) -
          (NUM_FREQS cfg.freq : Int) := by
      unfold pruneSurplus
      rw [sortedBackups_length]
    rw [hs] at h ⊢
    omega
  · rw [prune_eq_of_le (by omega)]
    have hk : (pruneSurplus cfg fs).toNat = 0 := by omega
    rw [hk]
    omega

theorem pruneSurplus_prune_nonpos (cfg : Config) (fs : FS)
    (hnd : (fileNames fs).Nodup) :
    pruneSurplus cfg (prune cfg fs) ≤ 0 := by
  have hlen := prune_matching_length cfg fs hnd
  have hs : pruneSurplus cfg fs =
      (((fileNames fs).filter (matchesFreq cfg.freq)).length : Int) -
        (NUM_FREQS cfg.freq : Int) := by
    unfold pruneSurplus
    rw [sortedBackups_length]
  have hs2 : pruneSurplus cfg (prune cfg fs) =
      (((fileNames (prune cfg fs)).filter (matchesFreq cfg.freq)).length : Int) -
        (NUM_FREQS cfg.freq : Int) := by
    unfold pruneSurplus
    rw [sortedBackups_length]
  rw [hs2, hlen, hs]
  omega

theorem prune_prune (cfg : Config) (fs : FS) (hnd : (fileNames fs).Nodup) :
    prune cfg (prune cfg fs) = prune cfg fs :=
  prune_eq_of_le (pruneSurplus_prune_nonpos cfg fs hnd)

/-! ### File-state lemmas for `run` -/

theorem run_ok_files {ts tmp : String} {cfg : Config} {f : Faults} {w : World}
    (hb : ¬ 60 < w.src.lockHeldFor) (h1 : f.serializeErr = false)
    (h2 : f.compressErr = false) (h3 : f.fsyncErr = false)
    (h4 : f.renameErr = false) :
    (run ts tmp cfg f w).2.fs.files =
      setFile (backupFileName ts cfg.freq)
        (FileData.xz (xzCompress (iterdumpBytes w.src.dump)))
        (removeFile tmp w.fs.files) := by
  rw [run_ok_eq hb h1 h2 h3 h4]
  show setFile (backupFileName ts cfg.freq) _
      (removeFile tmp (setFile tmp _ (setFile tmp _ w.fs.files))) = _
  rw [removeFile_setFile, removeFile_setFile]
  rfl

theorem run_err_files {ts tmp : String} {cfg : Config} {f : Faults} {w : World}
    {e : Err} (herr : (run ts tmp cfg f w).1 = Except.error e)
    (hunlink : f.unlinkErr = false) (htmp : tmp ∉ fileNames w.fs) :
    (run ts tmp cfg f w).2.fs.files = w.fs.files := by
  have hre : removeFile tmp w.fs.files = w.fs.files := removeFile_eq_self htmp
  by_cases hb : 60 < w.src.lockHeldFor
  · rw [run_busy_eq hb]
    rfl
  · cases h1 : f.serializeErr
    · cases h2 : f.compressErr
      · cases h3 : f.fsyncErr
        · cases h4 : f.renameErr
          · rw [run_ok_eq hb h1 h2 h3 h4] at herr
            simp at herr
          · rw [run_rename_eq hb h1 h2 h3 h4, publishCleanup_files, hunlink]
            show removeFile tmp (setFile tmp _ (setFile tmp _ w.fs.files)) = _
            rw [removeFile_setFile, removeFile_setFile, hre]
        · rw [run_fsync_eq hb h1 h2 h3, publishCleanup_files, hunlink]
          show removeFile tmp (setFile tmp _ (setFile tmp _ w.fs.files)) = _
          rw [removeFile_setFile, removeFile_setFile, hre]
      · rw [run_comp_eq hb h1 h2, publishCleanup_files, hunlink]
        show removeFile tmp (setFile tmp _ w.fs.files) = _
        rw [removeFile_setFile, hre]
    · rw [run_ser_eq hb h1, publishCleanup_files, hunlink]
      show removeFile tmp (setFile tmp _ w.fs.files) = _
      rw [removeFile_setFile, hre]

/-! ### Serialization lemmas -/

theorem utf8Encode_append (a b : String) :
    utf8Encode (a ++ b) = utf8Encode a ++ utf8Encode b := by
  unfold utf8Encode
  rw [show (a ++ b).data = a.data ++ b.data from rfl, List.map_append,
    List.flatten_append]

theorem utf8Encode_newline (s : String) :
    utf8Encode (s ++ "\n") = utf8Encode s ++ [10] := by
  rw [utf8Encode_append]
  rfl

theorem iterdumpBytes_eq (dump : List String) :
    iterdumpBytes dump =
      (dump.map (fun line => utf8Encode line ++ [10])).flatten := by
  unfold iterdumpBytes
  congr 1
  apply List.map_congr_left
  intro s _
  exact utf8Encode_newline s

/-! ### Lemmas about the CLI `backup` command -/

theorem mem_fileNames_run_ok {ts tmp : String} {cfg : Config} {f : Faults}
    {w : World} (hok : (run ts tmp cfg f w).1 = Except.ok ()) :
    backupFileName ts cfg.freq ∈ fileNames (run ts tmp cfg f w).2.fs := by
  obtain ⟨hb, h1, h2, h3, h4⟩ := run_ok_flags hok
  unfold fileNames
  rw [run_ok_files hb h1 h2 h3 h4]
  exact List.mem_cons_self _ _

theorem backupCommand_clock (tmp : String) (cfg : Config) (f : Faults)
    (w : World) : (backupCommand tmp cfg f w).2.clock = w.clock.tail := by
  simp only [backupCommand]
  have hrc := run_clock (w.clock.headD "") tmp cfg f { w with clock := w.clock.tail }
  rcases hrun : run (w.clock.headD "") tmp cfg f { w with clock := w.clock.tail }
    with ⟨r, w1⟩
  rw [hrun] at hrc
  cases r with
  | ok u => exact hrc
  | error e => exact hrc

theorem backupCommand_ok_fs {tmp : String} {cfg : Config} {f : Faults}
    {w : World}
    (hok : (run (w.clock.headD "") tmp cfg f { w with clock := w.clock.tail }).1 =
      Except.ok ()) :
    (backupCommand tmp cfg f w).2.fs =
      prune cfg
        (run (w.clock.headD "") tmp cfg f { w with clock := w.clock.tail }).2.fs := by
  simp only [backupCommand]
  rcases hrun : run (w.clock.headD "") tmp cfg f { w with clock := w.clock.tail }
    with ⟨r, w1⟩
  rw [hrun] at hok
  cases r with
  | ok u => rfl
  | error e => simp at hok

/-! ### Claim theorems -/

/-- C10: every call to `run(cfg)` creates the destination directory
`cfg.dst` (mode `0o700`, creating parents, tolerating prior existence) as
its first action, before opening the source; consequently even a run that
subsequently fails at any stage (including a busy source) leaves a
previously nonexistent destination directory newly created with mode
`0o700`, while a pre-existing directory keeps its mode. -/
theorem run_creates_destination_directory_first (ts tmp : String)
    (cfg : Config) (f : Faults) (w : World) :
    lookupDir cfg.dst (run ts tmp cfg f w).2.fs.dirs =
      some ((lookupDir cfg.dst w.fs.dirs).getD 0o700)
    ∧ (∀ q ∈ ancestors cfg.dst,
        (lookupDir q (run ts tmp cfg f w).2.fs.dirs).isSome)
    ∧ (60 < w.src.lockHeldFor →
        (run ts tmp cfg f w).1 = Except.error Err.sourceUnavailable ∧
          lookupDir cfg.dst (run ts tmp cfg f w).2.fs.dirs ≠ none) := by
  refine ⟨?_, ?_, ?_⟩
  · rw [run_dirs, lookupDir_mkdir_p_self]
  · intro q hq
    rw [run_dirs]
    exact lookupDir_mkdir_p_ancestor _ _ _ _ hq
  · intro hb
    refine ⟨by rw [run_busy_eq hb], ?_⟩
    rw [run_dirs, lookupDir_mkdir_p_self]
    simp

/-- Witness for C10 at a concrete input: a run against a busy source still
creates the previously missing destination directory with mode `0o700`. -/
theorem run_creates_destination_directory_first_witness :
    lookupDir exCfg.dst (run "T" "tmpf" exCfg noFaults exWorldBusy).2.fs.dirs =
      some ((lookupDir exCfg.dst exWorldBusy.fs.dirs).getD 0o700)
    ∧ (60 < exWorldBusy.src.lockHeldFor ∧
        lookupDir exCfg.dst exWorldBusy.fs.dirs = none) :=
  ⟨(run_creates_destination_directory_first "T" "tmpf" exCfg noFaults
      exWorldBusy).1,
    by decide, by decide⟩

/-- C6 (amended): when the source store stays locked past the 60-second
busy-wait timeout, `run` raises `SourceUnavailable` without retrying, and
the destination directory's file contents are unchanged; however, the
directory itself (with its parents) is still created first if missing, so
the directory is not literally untouched. -/
theorem run_busy_raises_sourceUnavailable (ts tmp : String) (cfg : Config)
    (f : Faults) (w : World) (hb : 60 < w.src.lockHeldFor) :
    (run ts tmp cfg f w).1 = Except.error Err.sourceUnavailable
    ∧ (run ts tmp cfg f w).2.fs.files = w.fs.files
    ∧ (run ts tmp cfg f w).2.fs.dirs = mkdir_p cfg.dst 0o700 w.fs.dirs := by
  rw [run_busy_eq hb]
  exact ⟨rfl, rfl, rfl⟩

/-- Witness for C6 at a concrete input: a 120-second writer lock triggers
`SourceUnavailable` and the directory contents are unchanged. -/
theorem run_busy_raises_sourceUnavailable_witness :
    60 < exWorldBusy.src.lockHeldFor
    ∧ ((run "T" "tmpf" exCfg noFaults exWorldBusy).1 =
        Except.error Err.sourceUnavailable
      ∧ (run "T" "tmpf" exCfg noFaults exWorldBusy).2.fs.files =
          exWorldBusy.fs.files) :=
  ⟨by decide,
    (run_busy_raises_sourceUnavailable "T" "tmpf" exCfg noFaults exWorldBusy
        (by decide)).1,
    (run_busy_raises_sourceUnavailable "T" "tmpf" exCfg noFaults exWorldBusy
        (by decide)).2.1⟩

/-- Counterexample to C6 as stated: with a busy source and a previously
nonexistent destination directory, `run` raises `SourceUnavailable` yet the
destination directory is not untouched — the call creates it (the `mkdir`
happens before the source is opened). -/
theorem run_busy_creates_missing_directory :
    (run "T" "tmpf" exCfg noFaults exWorldBusy).1 =
      Except.error Err.sourceUnavailable
    ∧ lookupDir exCfg.dst exWorldBusy.fs.dirs = none
    ∧ lookupDir exCfg.dst
        (run "T" "tmpf" exCfg noFaults exWorldBusy).2.fs.dirs = some 0o700 := by
  exact ⟨rfl, rfl, rfl⟩

/-- C8 (amended): the snapshotter opens the source with a 60-second
busy-wait timeout and copies pages in fixed batches of 16 per step,
invoking the progress observer synchronously after each step — but the
triple passed to the observer is `(status, remaining, total)` (the sqlite
status code of the last step, `SQLITE_OK` while pages remain and
`SQLITE_DONE` on the final step), not `(pages copied so far, remaining,
total)`; the pages copied so far is recovered as `total - remaining`. -/
theorem run_snapshot_progress_trace (ts tmp : String) (cfg : Config)
    (f : Faults) (w : World) (hb : w.src.lockHeldFor ≤ 60)
    (hp : 0 < w.src.pages) :
    (run ts tmp cfg f w).2.progressLog =
      w.progressLog ++ sqliteBackupTrace 16 w.src.pages
    ∧ sqliteBackupTrace 16 w.src.pages =
        (List.range ((w.src.pages + 15) / 16)).map (fun i =>
          (if w.src.pages - 16 * (i + 1) = 0 then SQLITE_DONE else SQLITE_OK,
           w.src.pages - 16 * (i + 1), w.src.pages)) :=
  ⟨run_progressLog (by omega), sqliteBackupTrace_eq _ hp⟩

/-- Witness for C8 at a concrete input: a 32-page database produces exactly
two batches of 16 pages with callbacks `(SQLITE_OK, 16, 32)` then
`(SQLITE_DONE, 0, 32)`. -/
theorem run_snapshot_progress_trace_witness :
    exWorld.src.lockHeldFor ≤ 60 ∧ 0 < exWorld.src.pages ∧
      (run "T" "tmpf" exCfg noFaults exWorld).2.progressLog =
        exWorld.progressLog ++ sqliteBackupTrace 16 exWorld.src.pages :=
  ⟨by decide, by decide,
    (run_snapshot_progress_trace "T" "tmpf" exCfg noFaults exWorld (by decide)
        (by decide)).1⟩

/-- Counterexample to C8 as stated: on a 32-page database the observer's
first invocation receives `(0, 16, 32)` — its first component is the
`SQLITE_OK` status code, not the 16 pages copied so far — so the claimed
triple `(pages copied so far, remaining, total)` is wrong. -/
theorem backup_progress_status_not_pages_copied :
    (run "T" "tmpf" exCfg noFaults exWorld).2.progressLog =
      [(0, 16, 32), (101, 0, 32)]
    ∧ (run "T" "tmpf" exCfg noFaults exWorld).2.progressLog ≠
        [(32 - 16, 16, 32), (32 - 0, 0, 32)] := by
  constructor
  · rfl
  · decide

/-- C3: for a destination directory with `N` files matching
`*_{freq}.sql.xz` and retention limit `L = NUM_FREQS[freq]`, `prune`
deletes exactly `max(0, N - L)` files (the length drops by `N - L` in
truncated subtraction), leaves every non-matching file untouched, and the
deleted files are exactly matching files that are lexicographically
strictly smaller than every matching file that survives. -/
theorem prune_retention_policy (cfg : Config) (fs : FS)
    (hnd : (fileNames fs).Nodup) (hfreq : cfg.freq ∈ FREQS) :
    ((fileNames (prune cfg fs)).length =
        (fileNames fs).length -
          (((fileNames fs).filter (matchesFreq cfg.freq)).length -
            NUM_FREQS cfg.freq))
    ∧ (∀ n, matchesFreq cfg.freq n = false →
        lookupFile n (prune cfg fs).files = lookupFile n fs.files)
    ∧ (∀ d, d ∈ fileNames fs → d ∉ fileNames (prune cfg fs) →
        matchesFreq cfg.freq d = true ∧
          ∀ k, k ∈ fileNames (prune cfg fs) → matchesFreq cfg.freq k = true →
            strLe d k = true ∧ d ≠ k) :=
  ⟨fileNames_prune_length cfg fs hnd,
    fun n hn => prune_keeps_nonmatching cfg fs n hn,
    fun _ hd hd2 => prune_deleted_smallest cfg fs hnd hd hd2⟩

/-- Witness for C3 at a concrete input: nine daily backups against limit 7
leave eight files of the original ten (the two smallest daily names are
deleted, `notes.txt` is untouched). -/
theorem prune_retention_policy_witness :
    (fileNames exFsDaily).Nodup ∧ exCfgDaily.freq ∈ FREQS ∧
      ((fileNames (prune exCfgDaily exFsDaily)).length =
          (fileNames exFsDaily).length -
            (((fileNames exFsDaily).filter (matchesFreq exCfgDaily.freq)).length -
              NUM_FREQS exCfgDaily.freq)
        ∧ lookupFile "notes.txt" (prune exCfgDaily exFsDaily).files =
            lookupFile "notes.txt" exFsDaily.files) :=
  ⟨by decide, by decide,
    (prune_retention_policy exCfgDaily exFsDaily (by decide) (by decide)).1,
    (prune_retention_policy exCfgDaily exFsDaily (by decide) (by decide)).2.1
      "notes.txt" (by decide)⟩

/-- C7: `prune` is idempotent — a second invocation for the same frequency
class returns the directory state unchanged, and its surplus
(`len(backups) - limit`) is no longer positive, so it performs zero
deletions. -/
theorem prune_idempotent (cfg : Config) (fs : FS)
    (hnd : (fileNames fs).Nodup) (hfreq : cfg.freq ∈ FREQS) :
    prune cfg (prune cfg fs) = prune cfg fs
    ∧ pruneSurplus cfg (prune cfg fs) ≤ 0 :=
  ⟨prune_prune cfg fs hnd, pruneSurplus_prune_nonpos cfg fs hnd⟩

/-- Witness for C7 at a concrete input. -/
theorem prune_idempotent_witness :
    (fileNames exFsDaily).Nodup ∧ exCfgDaily.freq ∈ FREQS ∧
      prune exCfgDaily (prune exCfgDaily exFsDaily) =
        prune exCfgDaily exFsDaily :=
  ⟨by decide, by decide,
    (prune_idempotent exCfgDaily exFsDaily (by decide) (by decide)).1⟩

/-- C1 (amended): every successful `run` whose fresh temp name and target
name are absent beforehand (no timestamp collision) leaves the destination
listing exactly one new name — `{ts}_{freq}.sql.xz` — and no temp file; on
a timestamp collision the existing file is atomically replaced instead and
no new name appears (see the counterexample). -/
theorem run_success_publishes_exactly_one_new_file (ts tmp : String)
    (cfg : Config) (f : Faults) (w : World)
    (hok : (run ts tmp cfg f w).1 = Except.ok ())
    (htmp : tmp ∉ fileNames w.fs)
    (hdest : backupFileName ts cfg.freq ∉ fileNames w.fs)
    (hne : tmp ≠ backupFileName ts cfg.freq) :
    fileNames (run ts tmp cfg f w).2.fs =
      backupFileName ts cfg.freq :: fileNames w.fs
    ∧ tmp ∉ fileNames (run ts tmp cfg f w).2.fs
    ∧ backupFileName ts cfg.freq = ts ++ "_" ++ cfg.freq ++ ".sql.xz" := by
  obtain ⟨hb, h1, h2, h3, h4⟩ := run_ok_flags hok
  have hfiles := @run_ok_files ts tmp cfg f w hb h1 h2 h3 h4
  have hnames : fileNames (run ts tmp cfg f w).2.fs =
      backupFileName ts cfg.freq :: fileNames w.fs := by
    unfold fileNames
    rw [hfiles]
    show backupFileName ts cfg.freq ::
        (removeFile (backupFileName ts cfg.freq)
          (removeFile tmp w.fs.files)).map Prod.fst = _
    rw [removeFile_eq_self htmp, removeFile_eq_self hdest]
  refine ⟨hnames, ?_, rfl⟩
  rw [hnames]
  intro hc
  rcases List.mem_cons.mp hc with h | h
  · exact hne h
  · exact htmp h

/-- Witness for C1 at a concrete input: a fault-free run against an empty
destination produces exactly the file `T_hourly.sql.xz`. -/
theorem run_success_publishes_exactly_one_new_file_witness :
    (run "T" "tmpf" exCfg noFaults exWorld).1 = Except.ok ()
    ∧ "tmpf" ∉ fileNames exWorld.fs
    ∧ backupFileName "T" exCfg.freq ∉ fileNames exWorld.fs
    ∧ "tmpf" ≠ backupFileName "T" exCfg.freq
    ∧ fileNames (run "T" "tmpf" exCfg noFaults exWorld).2.fs =
        backupFileName "T" exCfg.freq :: fileNames exWorld.fs :=
  ⟨rfl, by decide, by decide, by decide,
    (run_success_publishes_exactly_one_new_file "T" "tmpf" exCfg noFaults
        exWorld rfl (by decide) (by decide) (by decide)).1⟩

/-- Counterexample to C1 as stated: when the destination already contains a
file named `T_hourly.sql.xz` (a timestamp collision, which the code never
guards against), the run still succeeds but the directory listing is
unchanged — zero new files appear, the existing one is silently replaced. -/
theorem run_collision_adds_no_new_file :
    (run "T" "tmpf" exCfg noFaults exWorldCollide).1 = Except.ok ()
    ∧ fileNames (run "T" "tmpf" exCfg noFaults exWorldCollide).2.fs =
        fileNames exWorldCollide.fs
    ∧ backupFileName "T" exCfg.freq ∈ fileNames exWorldCollide.fs := by
  exact ⟨rfl, by decide, by decide⟩

/-- C2 (amended): whenever any pipeline stage raises and the best-effort
unlink of the temp file succeeds, the destination directory's visible
contents after `run` raises are exactly its contents before the call; if
the unlink itself also fails, the temp file is left behind (see the
counterexample), though no final backup file is ever created. -/
theorem run_failure_leaves_destination_unchanged (ts tmp : String)
    (cfg : Config) (f : Faults) (w : World) (htmp : tmp ∉ fileNames w.fs)
    (hunlink : f.unlinkErr = false) {e : Err}
    (herr : (run ts tmp cfg f w).1 = Except.error e) :
    (run ts tmp cfg f w).2.fs.files = w.fs.files :=
  run_err_files herr hunlink htmp

/-- Witness for C2 at a concrete input: an fsync failure with a working
unlink leaves the empty destination exactly empty. -/
theorem run_failure_leaves_destination_unchanged_witness :
    "tmpf" ∉ fileNames exWorld.fs
    ∧ ({ noFaults with fsyncErr := true } : Faults).unlinkErr = false
    ∧ (run "T" "tmpf" exCfg { noFaults with fsyncErr := true } exWorld).1 =
        Except.error Err.fsyncError
    ∧ (run "T" "tmpf" exCfg { noFaults with fsyncErr := true } exWorld).2.fs.files =
        exWorld.fs.files :=
  ⟨by decide, by decide, rfl,
    run_failure_leaves_destination_unchanged "T" "tmpf" exCfg
      { noFaults with fsyncErr := true } exWorld (by decide) (by decide) rfl⟩

/-- Counterexample to C2 as stated: if fsync raises and the best-effort
unlink of the temp file also fails, `run` re-raises the fsync error but the
temp file remains visible in the destination directory, so the contents are
not identical to before the call. -/
theorem run_failed_unlink_leaves_temp_file :
    (run "T" "tmpf" exCfg exFsyncUnlinkFaults exWorld).1 =
      Except.error Err.fsyncError
    ∧ (run "T" "tmpf" exCfg exFsyncUnlinkFaults exWorld).2.fs.files ≠
        exWorld.fs.files
    ∧ "tmpf" ∈ fileNames (run "T" "tmpf" exCfg exFsyncUnlinkFaults exWorld).2.fs := by
  exact ⟨rfl, by decide, by decide⟩

/-- C5: when any stage of the publish block fails, the caller observes
exactly the original error (never an unlink error): the temp file is
unlinked best-effort, a failing unlink only appends the log message
`failed to unlink tempfile`, and `raise e from None` re-raises the original
error unchanged in both cases. -/
theorem run_reraises_original_error (ts tmp : String) (cfg : Config)
    (f : Faults) (w : World) (hb : w.src.lockHeldFor ≤ 60) (e : Err)
    (hf : publishFault f = some e) :
    (run ts tmp cfg f w).1 = Except.error e
    ∧ (run ts tmp cfg f w).2.errLog =
        (if f.unlinkErr then w.errLog ++ [UNLINK_ERR_MSG] else w.errLog) := by
  have hb2 : ¬ 60 < w.src.lockHeldFor := by omega
  cases h1 : f.serializeErr
  · cases h2 : f.compressErr
    · cases h3 : f.fsyncErr
      · cases h4 : f.renameErr
        · simp [publishFault, h1, h2, h3, h4] at hf
        · simp [publishFault, h1, h2, h3, h4] at hf
          subst hf
          rw [run_rename_eq hb2 h1 h2 h3 h4]
          exact ⟨publishCleanup_fst _ _ _ _, publishCleanup_errLog _ _ _ _⟩
      · simp [publishFault, h1, h2, h3] at hf
        subst hf
        rw [run_fsync_eq hb2 h1 h2 h3]
        exact ⟨publishCleanup_fst _ _ _ _, publishCleanup_errLog _ _ _ _⟩
    · simp [publishFault, h1, h2] at hf
      subst hf
      rw [run_comp_eq hb2 h1 h2]
      exact ⟨publishCleanup_fst _ _ _ _, publishCleanup_errLog _ _ _ _⟩
  · simp [publishFault, h1] at hf
    subst hf
    rw [run_ser_eq hb2 h1]
    exact ⟨publishCleanup_fst _ _ _ _, publishCleanup_errLog _ _ _ _⟩

/-- Witness for C5 at a concrete input: fsync fails and the unlink also
fails; the caller still sees the fsync error, and the unlink failure is
logged. -/
theorem run_reraises_original_error_witness :
    exWorld.src.lockHeldFor ≤ 60
    ∧ publishFault exFsyncUnlinkFaults = some Err.fsyncError
    ∧ (run "T" "tmpf" exCfg exFsyncUnlinkFaults exWorld).1 =
        Except.error Err.fsyncError
    ∧ (run "T" "tmpf" exCfg exFsyncUnlinkFaults exWorld).2.errLog =
        (if exFsyncUnlinkFaults.unlinkErr
          then exWorld.errLog ++ [UNLINK_ERR_MSG] else exWorld.errLog) :=
  ⟨by decide, by decide,
    (run_reraises_original_error "T" "tmpf" exCfg exFsyncUnlinkFaults exWorld
        (by decide) Err.fsyncError (by decide)).1,
    (run_reraises_original_error "T" "tmpf" exCfg exFsyncUnlinkFaults exWorld
        (by decide) Err.fsyncError (by decide)).2⟩

/-- C4: after every successful run, the produced file holds an xz container
(configured with the SHA-256 integrity check) whose decompression yields
byte-for-byte the serializer's output: the concatenation of the dump
statements, each encoded as a newline-terminated UTF-8 line. -/
theorem run_roundtrip_serialized_bytes (ts tmp : String) (cfg : Config)
    (f : Faults) (w : World) (hok : (run ts tmp cfg f w).1 = Except.ok ()) :
    lookupFile (backupFileName ts cfg.freq) (run ts tmp cfg f w).2.fs.files =
      some (FileData.xz (xzCompress (iterdumpBytes w.src.dump)))
    ∧ xzDecompress (xzCompress (iterdumpBytes w.src.dump)) =
        iterdumpBytes w.src.dump
    ∧ iterdumpBytes w.src.dump =
        (w.src.dump.map (fun line => utf8Encode line ++ [10])).flatten
    ∧ (xzCompress (iterdumpBytes w.src.dump)).check = LZMA_CHECK_SHA256
    ∧ (xzCompress (iterdumpBytes w.src.dump)).format = LZMA_FORMAT_XZ := by
  obtain ⟨hb, h1, h2, h3, h4⟩ := run_ok_flags hok
  refine ⟨?_, rfl, iterdumpBytes_eq w.src.dump, rfl, rfl⟩
  rw [@run_ok_files ts tmp cfg f w hb h1 h2 h3 h4, lookupFile_setFile_self]

/-- Witness for C4 at a concrete input. -/
theorem run_roundtrip_serialized_bytes_witness :
    (run "T" "tmpf" exCfg noFaults exWorld).1 = Except.ok ()
    ∧ lookupFile (backupFileName "T" exCfg.freq)
        (run "T" "tmpf" exCfg noFaults exWorld).2.fs.files =
        some (FileData.xz (xzCompress (iterdumpBytes exWorld.src.dump)))
    ∧ xzDecompress (xzCompress (iterdumpBytes exWorld.src.dump)) =
        iterdumpBytes exWorld.src.dump :=
  ⟨rfl,
    (run_roundtrip_serialized_bytes "T" "tmpf" exCfg noFaults exWorld rfl).1,
    (run_roundtrip_serialized_bytes "T" "tmpf" exCfg noFaults exWorld rfl).2.1⟩

/-- C9: the timestamp is a single value: the CLI `backup` command reads the
clock exactly once (at module initialisation, before `run` starts), the
whole pipeline runs against that one value — the state after the command is
exactly `run` with the head clock value followed by `prune` — and on
success the produced file's name embeds exactly that value. -/
theorem backup_timestamp_computed_once (tmp : String) (cfg : Config)
    (f : Faults) (w : World) (t : String) (rest : List String)
    (hclock : w.clock = t :: rest) :
    (backupCommand tmp cfg f w).2.clock = rest
    ∧ ((run t tmp cfg f { w with clock := rest }).1 = Except.ok () →
        (backupCommand tmp cfg f w).2.fs =
          prune cfg (run t tmp cfg f { w with clock := rest }).2.fs
        ∧ backupFileName t cfg.freq ∈
            fileNames (run t tmp cfg f { w with clock := rest }).2.fs) := by
  have hts : w.clock.headD "" = t := by rw [hclock]; rfl
  have htail : w.clock.tail = rest := by rw [hclock]; rfl
  constructor
  · rw [backupCommand_clock, htail]
  · intro hok
    refine ⟨?_, mem_fileNames_run_ok hok⟩
    have hok2 : (run (w.clock.headD "") tmp cfg f
        { w with clock := w.clock.tail }).1 = Except.ok () := by
      rw [hts, htail]
      exact hok
    have h := backupCommand_ok_fs hok2
    rw [hts, htail] at h
    exact h

/-- Witness for C9 at a concrete input: the single pending clock value is
consumed exactly once and names the produced file. -/
theorem backup_timestamp_computed_once_witness :
    exWorld.clock = "20250101120000-0500" :: []
    ∧ (backupCommand "tmpf" exCfg noFaults exWorld).2.clock = []
    ∧ backupFileName "20250101120000-0500" exCfg.freq ∈
        fileNames (run "20250101120000-0500" "tmpf" exCfg noFaults
          { exWorld with clock := [] }).2.fs :=
  ⟨rfl,
    (backup_timestamp_computed_once "tmpf" exCfg noFaults exWorld
        "20250101120000-0500" [] rfl).1,
    ((backup_timestamp_computed_once "tmpf" exCfg noFaults exWorld
        "20250101120000-0500" [] rfl).2 rfl).2⟩
